import Mathlib

/-!
Verification of the mesh-adaptation operators (`mesh_operators.cpp`) and of the
`SimpleSaddle` constrained-solver test system (`ToroidST.cpp`) of this MFEM fork.

The embedding is shallow: each C++ member function becomes a Lean function on an
explicit state record, `double` becomes `ℝ`, `int`/`long` become `Int` (or `Nat`
where the source value is a count), and the mesh is a record of exactly the
observations the embedded code makes of it.  Mutation of the mesh by
`GeneralRefinement` / `DerefineByError` is modelled observationally: the
embedded operator returns a record of the mutating call it made (`none` when it
made none).
-/

namespace mfem

/-- Modelled from the spec: the `MeshOperator::Action` values `NONE`,
`CONTINUE`, `STOP`, `REPEAT` of the library header `mesh_operators.hpp`, which
is not part of the sources under review.  They occupy the two low bits of an
operator result. -/
def NONE : Nat := 0

/-- Modelled from the spec: action value `CONTINUE`. -/
def CONTINUE : Nat := 1

/-- Modelled from the spec: action value `STOP`. -/
def STOP : Nat := 2

/-- Modelled from the spec: action value `REPEAT`. -/
def REPEAT : Nat := 3

/-- Modelled from the spec: info flag `REFINED`, OR-combined into results. -/
def REFINED : Nat := 4

/-- Modelled from the spec: info flag `DEREFINED`. -/
def DEREFINED : Nat := 8

/-- Modelled from the spec: info flag `REBALANCED`. -/
def REBALANCED : Nat := 16

/-- Modelled from the spec: `MASK_ACTION = 0x3` selects the action bits. -/
def MASK_ACTION : Nat := 3

/-- Modelled from the spec: `mod & MASK_INFO` with `MASK_INFO = ~0x3`, i.e.
clearing the two action bits of a nonnegative `int` result. -/
def maskInfo (m : Nat) : Nat := m / 4 * 4

/-- The `next_step` loop of `MeshOperatorSequence::ApplyImpl`
(`src/unnamed/part_001`, lines 30-41), entered with the already incremented
cursor position `pos`.  A child operator is a function from the (abstract) mesh
to its result word and the possibly mutated mesh.  Returns the result word, the
final value of the `step` member, and the final mesh.  The `goto next_step` on
`NONE` at a non-last position recomputes `step = (step + 1) % size`, which never
wraps because the position was not the last one. -/
def applyFrom {M : Type} (ops : List (M → Nat × M)) (pos : Nat) (mesh : M) :
    Nat × Int × M :=
  if hlt : pos < ops.length then
    let res := (ops.get ⟨pos, hlt⟩) mesh
    if res.1 &&& MASK_ACTION = NONE then
      if hlast : pos = ops.length - 1 then (NONE, (pos : Int), res.2)
      else applyFrom ops ((pos + 1) % ops.length) res.2
    else if res.1 &&& MASK_ACTION = CONTINUE then
      (if pos = ops.length - 1 then res.1 else REPEAT ||| maskInfo res.1,
       (pos : Int), res.2)
    else if res.1 &&& MASK_ACTION = STOP then (STOP, (pos : Int), res.2)
    else if res.1 &&& MASK_ACTION = REPEAT then (res.1, (pos : Int) - 1, res.2)
    else (NONE, (pos : Int), res.2)
  else (NONE, (pos : Int), mesh)
termination_by ops.length - pos
decreasing_by
  have h1 : pos + 1 < ops.length := by omega
  rw [Nat.mod_eq_of_lt h1]
  omega

/-- `MeshOperatorSequence::ApplyImpl` (`src/unnamed/part_001`, lines 27-42).
`step` is the cursor member of the sequence object; the C++ `%` on `int` is
truncated division remainder, `Int.tmod`.  Returns the result word, the new
cursor, and the final mesh. -/
def MeshOperatorSequence.ApplyImpl {M : Type} (ops : List (M → Nat × M))
    (step : Int) (mesh : M) : Nat × Int × M :=
  if ops.length = 0 then (NONE, step, mesh)
  else applyFrom ops ((step + 1).tmod (ops.length : Int)).toNat mesh

/-- A concrete child operator over a `Nat` mesh: always reports `STOP` and
increments the mesh, used to instantiate the dispatch theorem. -/
def seqOpStopNat : Nat → Nat × Nat := fun m => (STOP, m + 1)

/-- A refinement marker, the element `(element-index, refinement-type)` pair
appended by `marked_elements.Append(Refinement(el))`.  The single-argument
constructor of the library header gives the default (isotropic) refinement
type 7; the header is not under src, so the default is modelled from the
spec's description of the marker as an index/type pair. -/
structure Refinement where
  index : Nat
  ref_type : Nat
deriving Repr, DecidableEq

/-- `Refinement(el)`: marker with the default refinement type. -/
def Refinement.ofIndex (el : Nat) : Refinement := ⟨el, 7⟩

/-- The observations `ThresholdRefiner::ApplyImpl` and
`ThresholdDerefiner::ApplyImpl` make of the mesh object they borrow:
`GetGlobalNE()`, `GetNE()`, `GetSequence()`, `Nonconforming()` (with
`Conforming()` its negation), `ncmesh->GetElementDepth(el)`, the element→dof
map and nodal coordinates behind `GetNodes()->FESpace()` and `GetNode`, the
collective `ReduceInt`, and the success flag of `DerefineByError`.  The serial
code path is modelled; `ReduceInt` is kept abstract so distributed reductions
remain representable. -/
structure Mesh where
  globalNE : Int
  ne : Nat
  seqNo : Int
  nonconf : Bool
  depth : Nat → Int
  elemDofs : Nat → List Nat
  nodeX : Nat → ℝ
  nodeY : Nat → ℝ
  reduceInt : Nat → Int
  derefineByError : List ℝ → ℝ → Int → Int → Bool

/-- The error estimator as consumed by the operators: `GetLocalErrors()` is the
per-element error vector, and `aniso = some flags` models a successful
`dynamic_cast<AnisotropicErrorEstimator*>` whose `GetAnisotropicFlags()`
returns `flags` (`none` models a null `aniso_estimator`). -/
structure Estimator where
  local_err : List ℝ
  aniso : Option (List Nat)

/-- Modelled from the spec: `Vector::Normlp` of the surrounding library (not
under src) — the aggregate error norm is the L^p norm of the local error
vector for a finite order `some p`, and the max-norm (`Normlinf`, a fold of
`fmax` starting from 0) when the order is `infinity()`, modelled as `none`. -/
noncomputable def Normlp (v : List ℝ) : Option ℝ → ℝ
  | some p => ((v.map fun x => |x| ^ p).sum) ^ (1 / p)
  | none => v.foldl (fun m x => max m |x|) 0

/-- Configuration and bookkeeping state of a `ThresholdRefiner`
(`src/unnamed/part_001`, lines 54-79).  `total_norm_p` is `some p` for a finite
norm order and `none` for the default `infinity()`. -/
structure ThresholdRefiner where
  total_norm_p : Option ℝ
  total_err_goal : ℝ
  total_fraction : ℝ
  local_err_goal : ℝ
  max_elements : Int
  amr_levels : Int
  xRange_levels : Int
  yRange_levels : Int
  xRange : Bool
  yRange : Bool
  xmax : ℝ
  xmin : ℝ
  ymax : ℝ
  ymin : ℝ
  threshold : ℝ
  num_marked_elements : Int
  marked_elements : List Refinement
  current_sequence : Int
  non_conforming : Int
  nc_limit : Int

/-- `ThresholdRefiner::GetNorm` (`src/unnamed/part_001`, lines 81-91), serial
path: the parallel branch is an `MFEM_USE_MPI` `ParNormlp` reduction over the
same data. -/
noncomputable def ThresholdRefiner.GetNorm (tr : ThresholdRefiner)
    (local_err : List ℝ) (mesh : Mesh) : ℝ :=
  Normlp local_err tr.total_norm_p

/-- `local_err(el)`: entry `el` of the estimator's error vector. -/
def errAt (est : Estimator) (el : Nat) : ℝ := est.local_err.getD el 0

/-- The nodal mean of one coordinate over an element's dofs, as accumulated by
the `for (j...) { GetNode(dofs[j], vert); mean += vert[c]; }` loop followed by
division by `ndof`. -/
noncomputable def centroid (mesh : Mesh) (coord : Nat → ℝ) (el : Nat) : ℝ :=
  (((mesh.elemDofs el).map coord).sum) / (((mesh.elemDofs el).length : ℕ) : ℝ)

/-- The threshold computed at `src/unnamed/part_001`, lines 141-150:
`max(total_err * total_fraction * pow(num_elements, -1/p), local_err_goal)` for
finite `p`, else `max(total_err * total_fraction, local_err_goal)`. -/
noncomputable def computedThreshold (tr : ThresholdRefiner) (est : Estimator)
    (mesh : Mesh) : ℝ :=
  match tr.total_norm_p with
  | some p =>
      max (tr.GetNorm est.local_err mesh * tr.total_fraction *
            ((mesh.globalNE : ℤ) : ℝ) ^ (-1 / p)) tr.local_err_goal
  | none => max (tr.GetNorm est.local_err mesh * tr.total_fraction) tr.local_err_goal

/-- The per-element marking condition of the `for (el...)` loop at
`src/unnamed/part_001`, lines 153-200, with its three branches: spatial-range
checks (both axes) on a nonconforming mesh when either range flag is set, the
plain depth-capped test on a nonconforming mesh otherwise, and the bare
threshold test on a conforming mesh. -/
def markPred (tr : ThresholdRefiner) (est : Estimator) (mesh : Mesh) (thr : ℝ)
    (el : Nat) : Prop :=
  if (tr.yRange || tr.xRange) && mesh.nonconf then
    let yMean := centroid mesh mesh.nodeY el
    let xMean := centroid mesh mesh.nodeX el
    let elementLevel := mesh.depth el
    errAt est el > thr ∧ elementLevel < tr.amr_levels ∧
      mesh.depth el < tr.amr_levels ∧
      ((yMean > tr.ymin ∧ yMean < tr.ymax) ∨ elementLevel < tr.yRange_levels) ∧
      ((xMean > tr.xmin ∧ xMean < tr.xmax) ∨ elementLevel < tr.xRange_levels)
  else if mesh.nonconf then
    errAt est el > thr ∧ mesh.depth el < tr.amr_levels
  else
    errAt est el > thr

open Classical in
/-- The `marked_elements` list built by the marking loop: the elements
`0 ≤ el < NE` satisfying the branch condition, in element order, each appended
as `Refinement(el)`. -/
noncomputable def markedList (tr : ThresholdRefiner) (est : Estimator)
    (mesh : Mesh) (thr : ℝ) : List Refinement :=
  ((List.range mesh.ne).filter fun el => decide (markPred tr est mesh thr el)).map
    Refinement.ofIndex

/-- The anisotropic override at `src/unnamed/part_001`, lines 202-213: when the
estimator is anisotropic and its flag array is non-empty, each marked element's
refinement type is replaced by `aniso_flags[ref.index]` (array access modelled
totally with default 0). -/
def anisoOverride (est : Estimator) (marked : List Refinement) : List Refinement :=
  match est.aniso with
  | some flags =>
      if 0 < flags.length then
        marked.map fun r => { r with ref_type := flags.getD r.index 0 }
      else marked
  | none => marked

/-- The marked-element list as it stands after the anisotropic override. -/
noncomputable def finalMarked (tr : ThresholdRefiner) (est : Estimator)
    (mesh : Mesh) : List Refinement :=
  anisoOverride est (markedList tr est mesh (computedThreshold tr est mesh))

/-- Observational record of a `mesh.GeneralRefinement(marked_elements,
non_conforming, nc_limit)` call, the only mesh mutation in
`ThresholdRefiner::ApplyImpl`. -/
structure RefineCall where
  elements : List Refinement
  nonconforming : Int
  nc_limit : Int
deriving Repr

open Classical in
/-- `ThresholdRefiner::ApplyImpl` (`src/unnamed/part_001`, lines 93-220).
Returns the result word, the updated operator state, and the
`GeneralRefinement` call it made (`none` when it returned without refining).
The commented-out block at lines 111-136 of the source is dead code and is not
modelled. -/
noncomputable def ThresholdRefiner.ApplyImpl (tr : ThresholdRefiner)
    (est : Estimator) (mesh : Mesh) : Nat × ThresholdRefiner × Option RefineCall :=
  let tr0 := { tr with threshold := 0, num_marked_elements := 0,
                       marked_elements := [], current_sequence := mesh.seqNo }
  if mesh.globalNE ≥ tr.max_elements then (STOP, tr0, none)
  else if tr.GetNorm est.local_err mesh ≤ tr.total_err_goal then (STOP, tr0, none)
  else
    let marked := finalMarked tr est mesh
    let tr1 := { tr0 with threshold := computedThreshold tr est mesh,
                          marked_elements := marked,
                          num_marked_elements := mesh.reduceInt marked.length }
    if mesh.reduceInt marked.length = 0 then (STOP, tr1, none)
    else (CONTINUE + REFINED, tr1, some ⟨marked, tr.non_conforming, tr.nc_limit⟩)

/-- A concrete serial conforming mesh with one element, used as witness
input. -/
noncomputable def mesh0 : Mesh where
  globalNE := 1
  ne := 1
  seqNo := 7
  nonconf := false
  depth := fun _ => 0
  elemDofs := fun _ => [0]
  nodeX := fun _ => 0
  nodeY := fun _ => 0
  reduceInt := fun n => (n : Int)
  derefineByError := fun _ _ _ _ => false

/-- A concrete estimator with a single unit local error and no anisotropic
information. -/
noncomputable def est0 : Estimator where
  local_err := [1]
  aniso := none

/-- A concrete refiner configuration: max-norm, fraction 1/2, everything else
permissive. -/
noncomputable def tr0 : ThresholdRefiner where
  total_norm_p := none
  total_err_goal := 0
  total_fraction := 1 / 2
  local_err_goal := 0
  max_elements := 10
  amr_levels := 100
  xRange_levels := 100
  yRange_levels := 100
  xRange := false
  yRange := false
  xmax := 100
  xmin := -100
  ymax := 100
  ymin := -100
  threshold := 0
  num_marked_elements := 0
  marked_elements := []
  current_sequence := -1
  non_conforming := -1
  nc_limit := 0

/-- The same configuration with the finite norm order `p = 1`. -/
noncomputable def tr1p : ThresholdRefiner := { tr0 with total_norm_p := some 1 }

/-- The same configuration with the element cap already reached. -/
noncomputable def trStop : ThresholdRefiner := { tr0 with max_elements := 0 }

/-- The witness mesh made nonconforming. -/
noncomputable def mesh_w : Mesh := { mesh0 with nonconf := true }

/-- Estimator with a unit local error and anisotropic flag 3 for element 0. -/
noncomputable def est_an : Estimator where
  local_err := [1]
  aniso := some [3]

/-- Counterexample configuration: the x-axis restriction is enabled with window
`(0, 1)` and reduced depth cap 0. -/
noncomputable def tr_ce : ThresholdRefiner :=
  { tr0 with xRange := true, xRange_levels := 0, xmin := 0, xmax := 1 }

/-- Counterexample mesh: conforming, one element whose nodal mean x-coordinate
is 5, outside the configured window. -/
noncomputable def mesh_ce : Mesh := { mesh0 with nodeX := fun _ => 5 }

/-- Second counterexample configuration: only the y-axis restriction is
enabled (window `(0, 1)`), while the disabled x-axis keeps a reduced depth cap
0 and window `(0, 1)`. -/
noncomputable def tr_ce2 : ThresholdRefiner :=
  { tr0 with yRange := true, ymin := 0, ymax := 1,
             xRange_levels := 0, xmin := 0, xmax := 1 }

/-- Second counterexample mesh: nonconforming, nodal mean y-coordinate 1/2
(inside the y window), nodal mean x-coordinate 5 (outside the x window). -/
noncomputable def mesh_ce2 : Mesh :=
  { mesh0 with nonconf := true, nodeX := fun _ => 5, nodeY := fun _ => 1 / 2 }

/-- Observational record of a `mesh.DerefineByError(local_err, true_threshold,
nc_limit, op)` call, the only mesh mutation in
`ThresholdDerefiner::ApplyImpl`. -/
structure DerefCall where
  errors : List ℝ
  threshold : ℝ
  nc_limit : Int
  op : Int

/-- Configuration of a `ThresholdDerefiner`: norm order, error fraction,
absolute threshold floor, nonconforming level limit and the aggregation
operator passed through to `DerefineByError`. -/
structure ThresholdDerefiner where
  total_norm_p : Option ℝ
  total_fraction : ℝ
  threshold : ℝ
  nc_limit : Int
  op : Int

/-- `ThresholdDerefiner::GetNorm` (`src/unnamed/part_001`, lines 230-241),
serial path as for the refiner. -/
noncomputable def ThresholdDerefiner.GetNorm (td : ThresholdDerefiner)
    (local_err : List ℝ) (mesh : Mesh) : ℝ :=
  Normlp local_err td.total_norm_p

/-- `ThresholdDerefiner::ApplyImpl` (`src/unnamed/part_001`, lines 243-255).
`mesh.Conforming()` is the negation of `Nonconforming()`.  Returns the result
word and the `DerefineByError` call it made (`none` on the conforming early
return). -/
noncomputable def ThresholdDerefiner.ApplyImpl (td : ThresholdDerefiner)
    (est : Estimator) (mesh : Mesh) : Nat × Option DerefCall :=
  if mesh.nonconf = false then (NONE, none)
  else
    let local_err := est.local_err
    let total_err := td.GetNorm local_err mesh
    let true_threshold := max (total_err * td.total_fraction) td.threshold
    (if mesh.derefineByError local_err true_threshold td.nc_limit td.op
     then CONTINUE + DEREFINED else NONE,
     some ⟨local_err, true_threshold, td.nc_limit, td.op⟩)

/-- A concrete derefiner configuration. -/
noncomputable def td0 : ThresholdDerefiner where
  total_norm_p := none
  total_fraction := 1 / 2
  threshold := 0
  nc_limit := 0
  op := 1

/-- The primal operator `A` assembled by the `SimpleSaddle` constructor
(`ToroidST.cpp`, lines 243-245): `Add(0,0,1); Add(1,1,1)` on a 2x2 zero
matrix, the identity. -/
noncomputable def Amat : Matrix (Fin 2) (Fin 2) ℝ := !![1, 0; 0, 1]

/-- The constraint operator `B` (`ToroidST.cpp`, lines 246-248):
`Add(0,0,1); Add(0,1,1)` on a 1x2 zero matrix, the row `[1 1]`. -/
noncomputable def Bmat : Matrix (Fin 1) (Fin 2) ℝ := !![1, 1]

/-- State of the `SimpleSaddle` test system (`ToroidST.cpp`, lines 216-233):
the stored reference solution, the right-hand side entries `rhs(0) = alpha`,
`rhs(1) = beta`, and the constraint right-hand side `dualrhs(0)`. -/
structure SimpleSaddle where
  truex : ℝ
  truey : ℝ
  truelambda : ℝ
  alpha : ℝ
  beta : ℝ
  dualrhs : ℝ

/-- `SimpleSaddle::SimpleSaddle` (`ToroidST.cpp`, lines 235-258): stores the
closed-form reference solution and the right-hand side, with homogeneous
constraint right-hand side. -/
noncomputable def mkSimpleSaddle (alpha beta : ℝ) : SimpleSaddle where
  truex := 0.5 * alpha - 0.5 * beta
  truey := -0.5 * alpha + 0.5 * beta
  truelambda := 0.5 * (alpha + beta)
  alpha := alpha
  beta := beta
  dualrhs := 0

/-- `SimpleSaddle::SetConstraintRHS` (`ToroidST.cpp`, lines 265-271). -/
noncomputable def SimpleSaddle.SetConstraintRHS (s : SimpleSaddle) (g : ℝ) :
    SimpleSaddle :=
  { s with dualrhs := g,
           truelambda := s.truelambda - 0.5 * g,
           truex := s.truex + 0.5 * g,
           truey := s.truey + 0.5 * g }

/-- The saddle-point system `[A B^T; B 0][x; lambda] = [f; g]` with the
assembled `A` and `B`. -/
def isSaddleSolution (f : Fin 2 → ℝ) (g x0 x1 lam : ℝ) : Prop :=
  Amat.mulVec ![x0, x1] + Bmat.transpose.mulVec ![lam] = f ∧
  Bmat.mulVec ![x0, x1] = ![g]

/-- Modelled from the spec: `PenaltyConstrainedSolver` (library code not under
src) forms `A + mu B^T B`, solves `(A + mu B^T B) x = f + mu B^T g` directly,
and recovers the multiplier as the consistent estimator `mu (B x - g)`.  For
the assembled `A`, `B` of `SimpleSaddle` the penalized matrix is
`[[1+mu, mu], [mu, 1+mu]]` with determinant `1+2mu`; this is its inverse
applied to the shifted forcing term, first component (see `penalty_solves`). -/
noncomputable def penaltyX0 (alpha beta g mu : ℝ) : ℝ :=
  ((1 + mu) * (alpha + mu * g) - mu * (beta + mu * g)) / (1 + 2 * mu)

/-- Second primal component of the modelled penalty solve. -/
noncomputable def penaltyX1 (alpha beta g mu : ℝ) : ℝ :=
  ((1 + mu) * (beta + mu * g) - mu * (alpha + mu * g)) / (1 + 2 * mu)

/-- Multiplier recovered by the modelled penalty solve. -/
noncomputable def penaltyLam (alpha beta g mu : ℝ) : ℝ :=
  mu * (penaltyX0 alpha beta g mu + penaltyX1 alpha beta g mu - g)

/-- `SimpleSaddle::Penalty` (`ToroidST.cpp`, lines 302-311): the errors
`serr(0) = truex - sol(0)`, `serr(1) = truey - sol(1)`,
`lerr(0) = truelambda - lambda(0)` left by the penalty solver. -/
noncomputable def SimpleSaddle.Penalty (s : SimpleSaddle) (pen : ℝ) : ℝ × ℝ × ℝ :=
  (s.truex - penaltyX0 s.alpha s.beta s.dualrhs pen,
   s.truey - penaltyX1 s.alpha s.beta s.dualrhs pen,
   s.truelambda - penaltyLam s.alpha s.beta s.dualrhs pen)

end mfem

namespace mfem

/-- One-step unfolding of the `next_step` loop at an in-range position. -/
theorem applyFrom_eq {M : Type} (ops : List (M → Nat × M)) (pos : Nat)
    (mesh : M) (hlt : pos < ops.length) :
    applyFrom ops pos mesh =
      (let res := (ops.get ⟨pos, hlt⟩) mesh
       if res.1 &&& MASK_ACTION = NONE then
         if pos = ops.length - 1 then (NONE, (pos : Int), res.2)
         else applyFrom ops ((pos + 1) % ops.length) res.2
       else if res.1 &&& MASK_ACTION = CONTINUE then
         (if pos = ops.length - 1 then res.1 else REPEAT ||| maskInfo res.1,
          (pos : Int), res.2)
       else if res.1 &&& MASK_ACTION = STOP then (STOP, (pos : Int), res.2)
       else if res.1 &&& MASK_ACTION = REPEAT then (res.1, (pos : Int) - 1, res.2)
       else (NONE, (pos : Int), res.2)) := by
  rw [applyFrom]
  simp only [dif_pos hlt, dite_eq_ite]

/-- Claim C9: on an empty operator sequence, `MeshOperatorSequence::ApplyImpl`
returns `NONE` without applying any operator, without touching the mesh and
without moving the cursor. -/
theorem meshOperatorSequence_empty {M : Type} (step : Int) (mesh : M) :
    MeshOperatorSequence.ApplyImpl ([] : List (M → Nat × M)) step mesh =
      (NONE, step, mesh) := by
  simp [MeshOperatorSequence.ApplyImpl]

/-- Claim C1: on a non-empty sequence, `MeshOperatorSequence::ApplyImpl` first
advances the cursor (wrapping modulo the sequence length) to `pos`, applies the
child operator there, and dispatches on the child's action bits: `NONE` at the
last position makes the whole sequence return `NONE`; `NONE` earlier makes it
advance and apply the next child within the same call (the result is that of a
fresh invocation with the cursor at `pos`); `CONTINUE` at the last position
returns the child's result word unchanged, and otherwise `REPEAT` combined with
the child's info flags; `STOP` returns `STOP` immediately; `REPEAT` decrements
the cursor and returns the child's result. -/
theorem meshOperatorSequence_dispatch {M : Type} (ops : List (M → Nat × M))
    (step : Int) (mesh : M) (hne : ops.length ≠ 0) (hstep : -1 ≤ step)
    (pos : Nat) (hpos : (pos : Int) = (step + 1).tmod (ops.length : Int))
    (hlt : pos < ops.length) (w : Nat) (mesh' : M)
    (happ : (ops.get ⟨pos, hlt⟩) mesh = (w, mesh')) :
    (w &&& MASK_ACTION = NONE → pos = ops.length - 1 →
       MeshOperatorSequence.ApplyImpl ops step mesh = (NONE, (pos : Int), mesh')) ∧
    (w &&& MASK_ACTION = NONE → pos ≠ ops.length - 1 →
       MeshOperatorSequence.ApplyImpl ops step mesh =
         MeshOperatorSequence.ApplyImpl ops (pos : Int) mesh') ∧
    (w &&& MASK_ACTION = CONTINUE → pos = ops.length - 1 →
       MeshOperatorSequence.ApplyImpl ops step mesh = (w, (pos : Int), mesh')) ∧
    (w &&& MASK_ACTION = CONTINUE → pos ≠ ops.length - 1 →
       MeshOperatorSequence.ApplyImpl ops step mesh =
         (REPEAT ||| maskInfo w, (pos : Int), mesh')) ∧
    (w &&& MASK_ACTION = STOP →
       MeshOperatorSequence.ApplyImpl ops step mesh = (STOP, (pos : Int), mesh')) ∧
    (w &&& MASK_ACTION = REPEAT →
       MeshOperatorSequence.ApplyImpl ops step mesh = (w, (pos : Int) - 1, mesh')) := by
  have hto : ((step + 1).tmod (ops.length : Int)).toNat = pos := by
    rw [← hpos]; exact Int.toNat_natCast pos
  have hunf : MeshOperatorSequence.ApplyImpl ops step mesh = applyFrom ops pos mesh := by
    unfold MeshOperatorSequence.ApplyImpl
    rw [if_neg hne, hto]
  have hbody := applyFrom_eq ops pos mesh hlt
  rw [happ] at hbody
  have hCN : ¬(CONTINUE = NONE) := by decide
  have hSN : ¬(STOP = NONE) := by decide
  have hSC : ¬(STOP = CONTINUE) := by decide
  have hRN : ¬(REPEAT = NONE) := by decide
  have hRC : ¬(REPEAT = CONTINUE) := by decide
  have hRS : ¬(REPEAT = STOP) := by decide
  refine ⟨?_, ?_, ?_, ?_, ?_, ?_⟩
  · intro h0 hlast
    rw [hunf, hbody]
    simp [h0, hlast]
  · intro h0 hlast
    rw [hunf, hbody]
    have e1 : MeshOperatorSequence.ApplyImpl ops (pos : Int) mesh' =
        applyFrom ops ((pos + 1) % ops.length) mesh' := by
      have hcast : ((pos : Int) + 1) = ((pos + 1 : Nat) : Int) := by push_cast; ring
      rw [MeshOperatorSequence.ApplyImpl, if_neg hne, hcast]
      rw [show (((pos + 1 : Nat) : Int).tmod ((ops.length : Nat) : Int)).toNat =
            (pos + 1) % ops.length from rfl]
    rw [e1]
    simp [h0, hlast]
  · intro h1 hlast
    rw [hunf, hbody]
    simp [h1, hlast, hCN]
  · intro h1 hlast
    rw [hunf, hbody]
    simp [h1, hlast, hCN]
  · intro h2
    rw [hunf, hbody]
    simp [h2, hSN, hSC]
  · intro h3
    rw [hunf, hbody]
    simp [h3, hRN, hRC, hRS]

/-- Witness for claim C1: a one-element sequence whose child reports `STOP`
propagates `STOP`, leaves the cursor at position 0, and keeps the child's mesh
mutation. -/
theorem meshOperatorSequence_dispatch_witness :
    MeshOperatorSequence.ApplyImpl [seqOpStopNat] (-1) 5 = (STOP, 0, 6) := by
  have h := meshOperatorSequence_dispatch [seqOpStopNat] (-1) 5
      (by decide) (by decide) 0 (by decide) (by decide) STOP 6 rfl
  exact h.2.2.2.2.1 (by decide)

/-- Evaluation helper: the max-norm of the unit error vector is 1. -/
theorem norm_eval_tr0 : tr0.GetNorm est0.local_err mesh0 = 1 := by
  simp [ThresholdRefiner.GetNorm, Normlp, tr0, est0]

/-- Evaluation helper: the L^1 norm of the unit error vector is 1. -/
theorem norm_eval_tr1p : tr1p.GetNorm est0.local_err mesh0 = 1 := by
  simp [ThresholdRefiner.GetNorm, Normlp, tr1p, tr0, est0, Real.one_rpow]

/-- Evaluation helper: the threshold of the witness configuration is 1/2. -/
theorem thr_eval_tr0 : computedThreshold tr0 est0 mesh0 = 1 / 2 := by
  have e : computedThreshold tr0 est0 mesh0 =
      max (tr0.GetNorm est0.local_err mesh0 * tr0.total_fraction)
        tr0.local_err_goal := rfl
  rw [e, norm_eval_tr0]
  rw [show tr0.total_fraction = 1 / 2 from rfl, show tr0.local_err_goal = 0 from rfl]
  rw [show (1 : ℝ) * (1 / 2) = 1 / 2 by norm_num]
  exact max_eq_left (by norm_num)

open Classical in
/-- Evaluation helper: the single element of the witness mesh is marked. -/
theorem marked_eval_tr0 :
    markedList tr0 est0 mesh0 (computedThreshold tr0 est0 mesh0) =
      [Refinement.ofIndex 0] := by
  have hp : markPred tr0 est0 mesh0 (computedThreshold tr0 est0 mesh0) 0 := by
    have e : markPred tr0 est0 mesh0 (computedThreshold tr0 est0 mesh0) 0 =
        (errAt est0 0 > computedThreshold tr0 est0 mesh0) := rfl
    rw [e, thr_eval_tr0]
    norm_num [errAt, est0]
  rw [markedList, show mesh0.ne = 1 from rfl, show List.range 1 = [0] from rfl]
  simp [List.filter, decide_eq_true hp]

/-- Evaluation helper: with no anisotropic estimator the final marked list is
the marking loop's list. -/
theorem final_eval_tr0 : finalMarked tr0 est0 mesh0 = [Refinement.ofIndex 0] := by
  rw [finalMarked, marked_eval_tr0]
  simp [anisoOverride, est0]

/-- Claim C2: `ThresholdRefiner::ApplyImpl` returns `STOP` exactly when the
global element count reaches `max_elements`, or the aggregate error norm is at
most `total_err_goal`, or the reduced marked-element count is zero; in every
other case it performs the `GeneralRefinement` call on the marked elements and
returns `CONTINUE` combined with `REFINED`. -/
theorem thresholdRefiner_stop_iff (tr : ThresholdRefiner) (est : Estimator)
    (mesh : Mesh) :
    ((ThresholdRefiner.ApplyImpl tr est mesh).1 = STOP ↔
      (mesh.globalNE ≥ tr.max_elements ∨
       tr.GetNorm est.local_err mesh ≤ tr.total_err_goal ∨
       mesh.reduceInt (finalMarked tr est mesh).length = 0)) ∧
    ((ThresholdRefiner.ApplyImpl tr est mesh).1 ≠ STOP →
      (ThresholdRefiner.ApplyImpl tr est mesh).1 = CONTINUE + REFINED ∧
      (ThresholdRefiner.ApplyImpl tr est mesh).2.2 =
        some ⟨finalMarked tr est mesh, tr.non_conforming, tr.nc_limit⟩) := by
  simp only [ThresholdRefiner.ApplyImpl]
  split_ifs with h1 h2 h3 <;>
    simp_all [STOP, CONTINUE, REFINED]

/-- Claim C3: when the refinement path is reached (element count below the cap
and aggregate error above the goal), the threshold stored by
`ThresholdRefiner::ApplyImpl` is `max(total_err * total_fraction *
num_elements^(-1/p), local_err_goal)` for a finite norm order `p`, and
`max(total_err * total_fraction, local_err_goal)` for the infinite order,
`total_err` being the L^p (resp. max) norm of the local error vector and
`num_elements` the global element count. -/
theorem thresholdRefiner_threshold_formula (tr : ThresholdRefiner)
    (est : Estimator) (mesh : Mesh)
    (h1 : mesh.globalNE < tr.max_elements)
    (h2 : tr.total_err_goal < tr.GetNorm est.local_err mesh) :
    (∀ p : ℝ, tr.total_norm_p = some p →
      (ThresholdRefiner.ApplyImpl tr est mesh).2.1.threshold =
        max (tr.GetNorm est.local_err mesh * tr.total_fraction *
              ((mesh.globalNE : ℤ) : ℝ) ^ (-1 / p)) tr.local_err_goal) ∧
    (tr.total_norm_p = none →
      (ThresholdRefiner.ApplyImpl tr est mesh).2.1.threshold =
        max (tr.GetNorm est.local_err mesh * tr.total_fraction)
          tr.local_err_goal) := by
  have g1 : ¬(mesh.globalNE ≥ tr.max_elements) := not_le.mpr h1
  have g2 : ¬(tr.GetNorm est.local_err mesh ≤ tr.total_err_goal) := not_le.mpr h2
  constructor
  · intro p hp
    simp only [ThresholdRefiner.ApplyImpl, if_neg g1, if_neg g2, computedThreshold, hp]
    split_ifs <;> rfl
  · intro hp
    simp only [ThresholdRefiner.ApplyImpl, if_neg g1, if_neg g2, computedThreshold, hp]
    split_ifs <;> rfl

/-- Claim C10: the only mesh mutation of `ThresholdRefiner::ApplyImpl` is its
single `GeneralRefinement` call on the continue path, so any `STOP` return
leaves the mesh untouched; and since the per-call state is reset at entry
(threshold, marked list, marked count, and the recorded mesh sequence number),
after a `STOP` the bookkeeping reports zero marked elements and the current
mesh sequence number. -/
theorem thresholdRefiner_stop_frame (tr : ThresholdRefiner) (est : Estimator)
    (mesh : Mesh) :
    ((ThresholdRefiner.ApplyImpl tr est mesh).2.2 = none ∨
     (ThresholdRefiner.ApplyImpl tr est mesh).2.2 =
       some ⟨finalMarked tr est mesh, tr.non_conforming, tr.nc_limit⟩) ∧
    ((ThresholdRefiner.ApplyImpl tr est mesh).1 = STOP →
      (ThresholdRefiner.ApplyImpl tr est mesh).2.2 = none ∧
      (ThresholdRefiner.ApplyImpl tr est mesh).2.1.num_marked_elements = 0 ∧
      (ThresholdRefiner.ApplyImpl tr est mesh).2.1.current_sequence = mesh.seqNo) := by
  simp only [ThresholdRefiner.ApplyImpl]
  split_ifs with h1 h2 h3 <;>
    simp_all [STOP, CONTINUE, REFINED]

/-- Witness for claim C2: on the concrete witness configuration the refiner
does not stop and reports `CONTINUE + REFINED`. -/
theorem thresholdRefiner_stop_iff_witness :
    (ThresholdRefiner.ApplyImpl tr0 est0 mesh0).1 = CONTINUE + REFINED := by
  have h := thresholdRefiner_stop_iff tr0 est0 mesh0
  refine (h.2 ?_).1
  intro hs
  have hd := h.1.mp hs
  rcases hd with hd | hd | hd
  · rw [show mesh0.globalNE = 1 from rfl, show tr0.max_elements = 10 from rfl] at hd
    omega
  · rw [norm_eval_tr0] at hd
    norm_num [tr0] at hd
  · rw [final_eval_tr0] at hd
    norm_num [mesh0] at hd

/-- Witness for claim C3: with norm order `p = 1`, unit error vector, goal 0
and fraction 1/2 on a one-element mesh, the stored threshold is 1/2. -/
theorem thresholdRefiner_threshold_formula_witness :
    (ThresholdRefiner.ApplyImpl tr1p est0 mesh0).2.1.threshold = 1 / 2 := by
  have h := (thresholdRefiner_threshold_formula tr1p est0 mesh0
      (by norm_num [mesh0, tr1p, tr0])
      (by rw [norm_eval_tr1p]; norm_num [tr1p, tr0])).1 1 rfl
  rw [h, norm_eval_tr1p]
  rw [show tr1p.total_fraction = 1 / 2 from rfl,
      show tr1p.local_err_goal = 0 from rfl,
      show ((mesh0.globalNE : ℤ) : ℝ) = 1 by norm_num [mesh0]]
  rw [show (-1 : ℝ) / 1 = -1 by norm_num, Real.one_rpow]
  rw [show (1 : ℝ) * (1 / 2) * 1 = 1 / 2 by norm_num]
  exact max_eq_left (by norm_num)

/-- Evaluation helper: the max-norm of a unit error vector. -/
theorem normlp_unit : Normlp [(1 : ℝ)] none = 1 := by
  simp [Normlp]

/-- Evaluation helper: `GetNorm` of a unit error vector under the max-norm. -/
theorem getNorm_unit (tr : ThresholdRefiner) (est : Estimator) (mesh : Mesh)
    (hp : tr.total_norm_p = none) (he : est.local_err = [1]) :
    tr.GetNorm est.local_err mesh = 1 := by
  simp only [ThresholdRefiner.GetNorm, hp, he, normlp_unit]

/-- Evaluation helper: threshold 1/2 for any max-norm configuration with
fraction 1/2, local floor 0 and a unit error vector. -/
theorem thr_eval_half (tr : ThresholdRefiner) (est : Estimator) (mesh : Mesh)
    (hp : tr.total_norm_p = none) (hf : tr.total_fraction = 1 / 2)
    (hg : tr.local_err_goal = 0) (he : est.local_err = [1]) :
    computedThreshold tr est mesh = 1 / 2 := by
  simp only [computedThreshold, hp, ThresholdRefiner.GetNorm, he, normlp_unit, hf, hg]
  rw [show (1 : ℝ) * (1 / 2) = 1 / 2 by norm_num]
  exact max_eq_left (by norm_num)

open Classical in
/-- Evaluation helper: on a one-element mesh whose element satisfies the
marking condition, the marked list is exactly that element. -/
theorem marked_eval_unit (tr : ThresholdRefiner) (est : Estimator) (mesh : Mesh)
    (hne : mesh.ne = 1)
    (hp : markPred tr est mesh (computedThreshold tr est mesh) 0) :
    markedList tr est mesh (computedThreshold tr est mesh) =
      [Refinement.ofIndex 0] := by
  rw [markedList, hne, show List.range 1 = [0] from rfl]
  simp [List.filter, decide_eq_true hp]

open Classical in
/-- Evaluation helper: on a one-element mesh whose element fails the marking
condition, the marked list is empty. -/
theorem marked_eval_none (tr : ThresholdRefiner) (est : Estimator) (mesh : Mesh)
    (hne : mesh.ne = 1)
    (hp : ¬markPred tr est mesh (computedThreshold tr est mesh) 0) :
    markedList tr est mesh (computedThreshold tr est mesh) = [] := by
  rw [markedList, hne, show List.range 1 = [0] from rfl]
  simp [List.filter, decide_eq_false hp]

open Classical in
/-- Membership in the marked list is exactly range membership plus the marking
condition. -/
theorem mem_markedList (tr : ThresholdRefiner) (est : Estimator) (mesh : Mesh)
    (thr : ℝ) (el : Nat) :
    el ∈ (markedList tr est mesh thr).map Refinement.index ↔
      el < mesh.ne ∧ markPred tr est mesh thr el := by
  rw [markedList, List.map_map]
  rw [show Refinement.index ∘ Refinement.ofIndex = id from rfl, List.map_id]
  simp [List.mem_filter, List.mem_range]

/-- Claim C4 (amended): on a nonconforming mesh, `ThresholdRefiner::ApplyImpl`
marks exactly the elements whose local error exceeds the threshold and whose
depth is below `amr_levels`, additionally requiring — whenever either spatial
restriction axis is enabled — that for both axes the nodal-mean coordinate lie
strictly inside that axis's window or the depth be below that axis's reduced
cap; on a conforming mesh exactly the elements whose local error exceeds the
threshold are marked, with no depth or window check.  No element at or above
`amr_levels` is ever marked on a nonconforming mesh. -/
theorem thresholdRefiner_marking (tr : ThresholdRefiner) (est : Estimator)
    (mesh : Mesh) (el : Nat) :
    (el ∈ (markedList tr est mesh (computedThreshold tr est mesh)).map
        Refinement.index ↔
      (el < mesh.ne ∧ errAt est el > computedThreshold tr est mesh ∧
        (mesh.nonconf = true →
          mesh.depth el < tr.amr_levels ∧
          ((tr.yRange = true ∨ tr.xRange = true) →
            (((centroid mesh mesh.nodeY el > tr.ymin ∧
               centroid mesh mesh.nodeY el < tr.ymax) ∨
              mesh.depth el < tr.yRange_levels) ∧
             ((centroid mesh mesh.nodeX el > tr.xmin ∧
               centroid mesh mesh.nodeX el < tr.xmax) ∨
              mesh.depth el < tr.xRange_levels)))))) ∧
    (mesh.nonconf = true → tr.amr_levels ≤ mesh.depth el →
      el ∉ (markedList tr est mesh (computedThreshold tr est mesh)).map
        Refinement.index) := by
  have hchar : markPred tr est mesh (computedThreshold tr est mesh) el ↔
      (errAt est el > computedThreshold tr est mesh ∧
        (mesh.nonconf = true →
          mesh.depth el < tr.amr_levels ∧
          ((tr.yRange = true ∨ tr.xRange = true) →
            (((centroid mesh mesh.nodeY el > tr.ymin ∧
               centroid mesh mesh.nodeY el < tr.ymax) ∨
              mesh.depth el < tr.yRange_levels) ∧
             ((centroid mesh mesh.nodeX el > tr.xmin ∧
               centroid mesh mesh.nodeX el < tr.xmax) ∨
              mesh.depth el < tr.xRange_levels))))) := by
    by_cases hnc : mesh.nonconf = true <;> by_cases hy : tr.yRange = true <;>
      by_cases hx : tr.xRange = true <;>
        simp [markPred, hnc, hy, hx] <;> tauto
  constructor
  · rw [mem_markedList]
    constructor
    · rintro ⟨h1, h2⟩
      exact ⟨h1, hchar.mp h2⟩
    · rintro ⟨h1, h2⟩
      exact ⟨h1, hchar.mpr h2⟩
  · intro hnc hle hmem
    rw [mem_markedList] at hmem
    have hd := ((hchar.mp hmem.2).2 hnc).1
    omega

/-- Counterexample for claim C4 as stated.  First input: a conforming mesh
with the x-restriction enabled, the element's nodal mean outside the window
and its depth not below the reduced cap, yet the element is marked (the
conforming branch ignores depth caps and windows).  Second input: a
nonconforming mesh with only the y-restriction enabled and satisfied, depth
below every cap and error above threshold, yet nothing is marked, because the
code also applies the disabled x-axis clause. -/
theorem thresholdRefiner_marking_counterexample :
    mesh_ce.nonconf = false ∧ tr_ce.xRange = true ∧
    ¬((centroid mesh_ce mesh_ce.nodeX 0 > tr_ce.xmin ∧
       centroid mesh_ce mesh_ce.nodeX 0 < tr_ce.xmax) ∨
      mesh_ce.depth 0 < tr_ce.xRange_levels) ∧
    (markedList tr_ce est0 mesh_ce (computedThreshold tr_ce est0 mesh_ce)).map
      Refinement.index = [0] ∧
    mesh_ce2.nonconf = true ∧ tr_ce2.yRange = true ∧ tr_ce2.xRange = false ∧
    errAt est0 0 > computedThreshold tr_ce2 est0 mesh_ce2 ∧
    mesh_ce2.depth 0 < tr_ce2.amr_levels ∧
    (centroid mesh_ce2 mesh_ce2.nodeY 0 > tr_ce2.ymin ∧
     centroid mesh_ce2 mesh_ce2.nodeY 0 < tr_ce2.ymax) ∧
    (markedList tr_ce2 est0 mesh_ce2 (computedThreshold tr_ce2 est0 mesh_ce2)).map
      Refinement.index = [] := by
  have hp_ce : markPred tr_ce est0 mesh_ce (computedThreshold tr_ce est0 mesh_ce) 0 := by
    have e : markPred tr_ce est0 mesh_ce (computedThreshold tr_ce est0 mesh_ce) 0 =
        (errAt est0 0 > computedThreshold tr_ce est0 mesh_ce) := rfl
    rw [e, thr_eval_half tr_ce est0 mesh_ce rfl rfl rfl rfl]
    norm_num [errAt, est0]
  have hnp_ce2 :
      ¬markPred tr_ce2 est0 mesh_ce2 (computedThreshold tr_ce2 est0 mesh_ce2) 0 := by
    rw [show computedThreshold tr_ce2 est0 mesh_ce2 = 1 / 2 from
        thr_eval_half tr_ce2 est0 mesh_ce2 rfl rfl rfl rfl]
    intro hmp
    norm_num [markPred, centroid, errAt, est0, tr_ce2, tr0, mesh_ce2, mesh0] at hmp
  refine ⟨rfl, rfl, ?_, ?_, rfl, rfl, rfl, ?_, ?_, ?_, ?_⟩
  · norm_num [centroid, mesh_ce, mesh0, tr_ce, tr0]
  · rw [marked_eval_unit tr_ce est0 mesh_ce rfl hp_ce]
    rfl
  · rw [thr_eval_half tr_ce2 est0 mesh_ce2 rfl rfl rfl rfl]
    norm_num [errAt, est0]
  · norm_num [mesh_ce2, mesh0, tr_ce2, tr0]
  · constructor <;> norm_num [centroid, mesh_ce2, mesh0, tr_ce2, tr0]
  · rw [marked_eval_none tr_ce2 est0 mesh_ce2 rfl hnp_ce2]
    rfl

/-- Witness for claim C4 (amended): on a nonconforming one-element mesh with no
range restriction, error above threshold and depth below the cap, the element
is marked. -/
theorem thresholdRefiner_marking_witness :
    0 ∈ (markedList tr0 est0 mesh_w (computedThreshold tr0 est0 mesh_w)).map
      Refinement.index := by
  refine (thresholdRefiner_marking tr0 est0 mesh_w 0).1.mpr ⟨?_, ?_, ?_⟩
  · norm_num [mesh_w, mesh0]
  · rw [thr_eval_half tr0 est0 mesh_w rfl rfl rfl rfl]
    norm_num [errAt, est0]
  · intro _
    refine ⟨by norm_num [mesh_w, mesh0, tr0], ?_⟩
    rintro (hy | hx)
    · norm_num [tr0] at hy
    · norm_num [tr0] at hx

/-- Claim C5: when the refinement path is reached and the estimator is
anisotropic with a non-empty flag array, every marked element's refinement type
is overridden with the flag stored at that element's element index
(`aniso_flags[ref.index]`); with an empty flag array, or no anisotropic
estimator, the marked elements are left unchanged. -/
theorem thresholdRefiner_aniso_override (tr : ThresholdRefiner)
    (est : Estimator) (mesh : Mesh)
    (h1 : mesh.globalNE < tr.max_elements)
    (h2 : tr.total_err_goal < tr.GetNorm est.local_err mesh) :
    (∀ flags, est.aniso = some flags → 0 < flags.length →
      (ThresholdRefiner.ApplyImpl tr est mesh).2.1.marked_elements =
        (markedList tr est mesh (computedThreshold tr est mesh)).map
          fun r => { r with ref_type := flags.getD r.index 0 }) ∧
    (est.aniso = some [] →
      (ThresholdRefiner.ApplyImpl tr est mesh).2.1.marked_elements =
        markedList tr est mesh (computedThreshold tr est mesh)) ∧
    (est.aniso = none →
      (ThresholdRefiner.ApplyImpl tr est mesh).2.1.marked_elements =
        markedList tr est mesh (computedThreshold tr est mesh)) := by
  have g1 : ¬(mesh.globalNE ≥ tr.max_elements) := not_le.mpr h1
  have g2 : ¬(tr.GetNorm est.local_err mesh ≤ tr.total_err_goal) := not_le.mpr h2
  refine ⟨?_, ?_, ?_⟩
  · intro flags hf hlen
    simp only [ThresholdRefiner.ApplyImpl, if_neg g1, if_neg g2]
    split_ifs <;> simp only [finalMarked, anisoOverride, hf, if_pos hlen]
  · intro hf
    simp only [ThresholdRefiner.ApplyImpl, if_neg g1, if_neg g2]
    split_ifs <;> simp [finalMarked, anisoOverride, hf]
  · intro hf
    simp only [ThresholdRefiner.ApplyImpl, if_neg g1, if_neg g2]
    split_ifs <;> simp only [finalMarked, anisoOverride, hf]

/-- Witness for claim C5: with anisotropic flags `[3]` the single marked
element's refinement type becomes 3 (the flag at its element index 0). -/
theorem thresholdRefiner_aniso_override_witness :
    (ThresholdRefiner.ApplyImpl tr0 est_an mesh0).2.1.marked_elements =
      [({ index := 0, ref_type := 3 } : Refinement)] := by
  have h := (thresholdRefiner_aniso_override tr0 est_an mesh0
      (by norm_num [mesh0, tr0])
      (by rw [getNorm_unit tr0 est_an mesh0 rfl rfl]; norm_num [tr0])).1
      [3] rfl (by norm_num)
  have hp : markPred tr0 est_an mesh0 (computedThreshold tr0 est_an mesh0) 0 := by
    have e : markPred tr0 est_an mesh0 (computedThreshold tr0 est_an mesh0) 0 =
        (errAt est_an 0 > computedThreshold tr0 est_an mesh0) := rfl
    rw [e, thr_eval_half tr0 est_an mesh0 rfl rfl rfl rfl]
    norm_num [errAt, est_an]
  rw [h, marked_eval_unit tr0 est_an mesh0 rfl hp]
  rfl

/-- Claim C6: `ThresholdDerefiner::ApplyImpl` on a conforming mesh returns
`NONE` without reading the estimator or calling `DerefineByError`; on a
nonconforming mesh it calls `DerefineByError` with the effective threshold
`max(total_err * total_fraction, threshold)` and returns `CONTINUE` combined
with `DEREFINED` exactly when that call reports a coarsening, and `NONE`
otherwise. -/
theorem thresholdDerefiner_apply (td : ThresholdDerefiner) (est : Estimator)
    (mesh : Mesh) :
    (mesh.nonconf = false → ThresholdDerefiner.ApplyImpl td est mesh = (NONE, none)) ∧
    (mesh.nonconf = true →
      ThresholdDerefiner.ApplyImpl td est mesh =
        ((if mesh.derefineByError est.local_err
              (max (td.GetNorm est.local_err mesh * td.total_fraction) td.threshold)
              td.nc_limit td.op
          then CONTINUE + DEREFINED else NONE),
         some ⟨est.local_err,
               max (td.GetNorm est.local_err mesh * td.total_fraction) td.threshold,
               td.nc_limit, td.op⟩)) ∧
    (mesh.nonconf = true →
      ((ThresholdDerefiner.ApplyImpl td est mesh).1 = CONTINUE + DEREFINED ↔
        mesh.derefineByError est.local_err
          (max (td.GetNorm est.local_err mesh * td.total_fraction) td.threshold)
          td.nc_limit td.op = true) ∧
      ((ThresholdDerefiner.ApplyImpl td est mesh).1 = NONE ↔
        mesh.derefineByError est.local_err
          (max (td.GetNorm est.local_err mesh * td.total_fraction) td.threshold)
          td.nc_limit td.op = false)) := by
  have hmain : mesh.nonconf = true →
      ThresholdDerefiner.ApplyImpl td est mesh =
        ((if mesh.derefineByError est.local_err
              (max (td.GetNorm est.local_err mesh * td.total_fraction) td.threshold)
              td.nc_limit td.op
          then CONTINUE + DEREFINED else NONE),
         some ⟨est.local_err,
               max (td.GetNorm est.local_err mesh * td.total_fraction) td.threshold,
               td.nc_limit, td.op⟩) := by
    intro h
    simp [ThresholdDerefiner.ApplyImpl, h]
  refine ⟨?_, hmain, ?_⟩
  · intro h
    simp [ThresholdDerefiner.ApplyImpl, h]
  · intro h
    rw [hmain h]
    cases hb : mesh.derefineByError est.local_err
        (max (td.GetNorm est.local_err mesh * td.total_fraction) td.threshold)
        td.nc_limit td.op <;>
      simp [hb, CONTINUE, DEREFINED, NONE]

/-- Witness for claim C6: on the conforming witness mesh the derefiner reports
`NONE` and makes no `DerefineByError` call. -/
theorem thresholdDerefiner_apply_witness :
    ThresholdDerefiner.ApplyImpl td0 est0 mesh0 = (NONE, none) :=
  (thresholdDerefiner_apply td0 est0 mesh0).1 rfl

/-- Scalar characterization of the assembled saddle-point system: with `A` the
identity and `B = [1 1]` it reads `x0 + lam = f0`, `x1 + lam = f1`,
`x0 + x1 = g`. -/
theorem isSaddleSolution_iff (f0 f1 g x0 x1 lam : ℝ) :
    isSaddleSolution ![f0, f1] g x0 x1 lam ↔
      (x0 + lam = f0 ∧ x1 + lam = f1 ∧ x0 + x1 = g) := by
  unfold isSaddleSolution
  constructor
  · rintro ⟨h1, h2⟩
    have e0 := congrFun h1 0
    have e1 := congrFun h1 1
    have e2 := congrFun h2 0
    simp [Amat, Bmat, Matrix.mulVec, Matrix.dotProduct, Fin.sum_univ_two,
          Fin.sum_univ_one, Matrix.transpose_apply] at e0 e1 e2
    exact ⟨by linarith, by linarith, by linarith⟩
  · rintro ⟨h1, h2, h3⟩
    constructor
    · funext i
      fin_cases i <;>
        simp [Amat, Bmat, Matrix.mulVec, Matrix.dotProduct, Fin.sum_univ_two,
              Fin.sum_univ_one, Matrix.transpose_apply] <;>
        linarith
    · funext i
      fin_cases i <;>
        simp [Bmat, Matrix.mulVec, Matrix.dotProduct, Fin.sum_univ_two] <;>
        linarith

/-- The modelled penalty solution does solve the penalized system
`(A + mu B^T B) x = f + mu B^T g` (whose right-hand side is
`![alpha + mu g, beta + mu g]`), which justifies the closed form used for the
spec-modelled solver. -/
theorem penalty_solves (alpha beta g mu : ℝ) (h : 1 + 2 * mu ≠ 0) :
    (Amat + mu • (Bmat.transpose * Bmat)).mulVec
        ![penaltyX0 alpha beta g mu, penaltyX1 alpha beta g mu] =
      ![alpha + mu * g, beta + mu * g] := by
  funext i
  fin_cases i <;>
    simp [Amat, Bmat, Matrix.mulVec, Matrix.dotProduct, Matrix.mul_apply,
          Fin.sum_univ_two, Fin.sum_univ_one, Matrix.transpose_apply,
          penaltyX0, penaltyX1, Matrix.add_apply, Matrix.smul_apply] <;>
    field_simp <;>
    ring

/-- Claim C7: the stored reference values of `SimpleSaddle` are exactly
`0.5 alpha - 0.5 beta`, `-0.5 alpha + 0.5 beta`, `0.5 (alpha + beta)`; they
solve the homogeneous saddle system; `SetConstraintRHS` shifts them by exactly
`+0.5 g` on both primal components and `-0.5 g` on the multiplier; the shifted
values solve the system with constraint right-hand side `g`, and are its unique
solution. -/
theorem simpleSaddle_exact (alpha beta g : ℝ) :
    ((mkSimpleSaddle alpha beta).truex = 0.5 * alpha - 0.5 * beta ∧
     (mkSimpleSaddle alpha beta).truey = -0.5 * alpha + 0.5 * beta ∧
     (mkSimpleSaddle alpha beta).truelambda = 0.5 * (alpha + beta)) ∧
    isSaddleSolution ![alpha, beta] 0 (mkSimpleSaddle alpha beta).truex
      (mkSimpleSaddle alpha beta).truey (mkSimpleSaddle alpha beta).truelambda ∧
    (((mkSimpleSaddle alpha beta).SetConstraintRHS g).truex =
        (mkSimpleSaddle alpha beta).truex + 0.5 * g ∧
     ((mkSimpleSaddle alpha beta).SetConstraintRHS g).truey =
        (mkSimpleSaddle alpha beta).truey + 0.5 * g ∧
     ((mkSimpleSaddle alpha beta).SetConstraintRHS g).truelambda =
        (mkSimpleSaddle alpha beta).truelambda - 0.5 * g) ∧
    isSaddleSolution ![alpha, beta] g
      ((mkSimpleSaddle alpha beta).SetConstraintRHS g).truex
      ((mkSimpleSaddle alpha beta).SetConstraintRHS g).truey
      ((mkSimpleSaddle alpha beta).SetConstraintRHS g).truelambda ∧
    (∀ x0 x1 lam, isSaddleSolution ![alpha, beta] g x0 x1 lam →
      x0 = ((mkSimpleSaddle alpha beta).SetConstraintRHS g).truex ∧
      x1 = ((mkSimpleSaddle alpha beta).SetConstraintRHS g).truey ∧
      lam = ((mkSimpleSaddle alpha beta).SetConstraintRHS g).truelambda) := by
  refine ⟨⟨rfl, rfl, rfl⟩, ?_, ⟨rfl, rfl, rfl⟩, ?_, ?_⟩
  · rw [isSaddleSolution_iff]
    refine ⟨?_, ?_, ?_⟩
    · show 0.5 * alpha - 0.5 * beta + 0.5 * (alpha + beta) = alpha
      ring
    · show -0.5 * alpha + 0.5 * beta + 0.5 * (alpha + beta) = beta
      ring
    · show 0.5 * alpha - 0.5 * beta + (-0.5 * alpha + 0.5 * beta) = 0
      ring
  · rw [isSaddleSolution_iff]
    refine ⟨?_, ?_, ?_⟩
    · show 0.5 * alpha - 0.5 * beta + 0.5 * g + (0.5 * (alpha + beta) - 0.5 * g) = alpha
      ring
    · show -0.5 * alpha + 0.5 * beta + 0.5 * g + (0.5 * (alpha + beta) - 0.5 * g) = beta
      ring
    · show 0.5 * alpha - 0.5 * beta + 0.5 * g + (-0.5 * alpha + 0.5 * beta + 0.5 * g) = g
      ring
  · intro x0 x1 lam h
    rw [isSaddleSolution_iff] at h
    obtain ⟨h1, h2, h3⟩ := h
    refine ⟨?_, ?_, ?_⟩
    · show x0 = 0.5 * alpha - 0.5 * beta + 0.5 * g
      linarith
    · show x1 = -0.5 * alpha + 0.5 * beta + 0.5 * g
      linarith
    · show lam = 0.5 * (alpha + beta) - 0.5 * g
      linarith

/-- Witness for claim C7: the shifted reference values at
`alpha = 4, beta = -2, g = 1` solve the saddle system with constraint
right-hand side 1. -/
theorem simpleSaddle_exact_witness :
    isSaddleSolution ![(4 : ℝ), -2] 1
      ((mkSimpleSaddle 4 (-2)).SetConstraintRHS 1).truex
      ((mkSimpleSaddle 4 (-2)).SetConstraintRHS 1).truey
      ((mkSimpleSaddle 4 (-2)).SetConstraintRHS 1).truelambda :=
  (simpleSaddle_exact 4 (-2) 1).2.2.2.1

/-- Exact error of the modelled penalty solve on the `(4, -2)` test system:
`-1/(1+2 mu)` in each primal component and `+1/(1+2 mu)` in the multiplier,
hence strictly below `1/mu` in absolute value for every positive `mu`. -/
theorem penalty_bound_gen (m : ℝ) (hm : 0 < m) :
    |(SimpleSaddle.Penalty (mkSimpleSaddle 4 (-2)) m).1| < 1 / m ∧
    |(SimpleSaddle.Penalty (mkSimpleSaddle 4 (-2)) m).2.1| < 1 / m ∧
    |(SimpleSaddle.Penalty (mkSimpleSaddle 4 (-2)) m).2.2| < 1 / m := by
  have hpos : (0 : ℝ) < 1 + 2 * m := by linarith
  have hne : (1 + 2 * m) ≠ 0 := ne_of_gt hpos
  have k1 : (SimpleSaddle.Penalty (mkSimpleSaddle 4 (-2)) m).1 = -(1 / (1 + 2 * m)) := by
    simp only [SimpleSaddle.Penalty, mkSimpleSaddle, penaltyX0]
    field_simp
    ring
  have k2 : (SimpleSaddle.Penalty (mkSimpleSaddle 4 (-2)) m).2.1 = -(1 / (1 + 2 * m)) := by
    simp only [SimpleSaddle.Penalty, mkSimpleSaddle, penaltyX1]
    field_simp
    ring
  have k3 : (SimpleSaddle.Penalty (mkSimpleSaddle 4 (-2)) m).2.2 = 1 / (1 + 2 * m) := by
    simp only [SimpleSaddle.Penalty, mkSimpleSaddle, penaltyLam, penaltyX0, penaltyX1]
    field_simp
    ring
  have hbound : 1 / (1 + 2 * m) < 1 / m := by
    rw [div_lt_div_iff hpos hm]
    linarith
  have habs : (0 : ℝ) < 1 / (1 + 2 * m) := div_pos one_pos hpos
  refine ⟨?_, ?_, ?_⟩
  · rw [k1, abs_neg, abs_of_pos habs]
    exact hbound
  · rw [k2, abs_neg, abs_of_pos habs]
    exact hbound
  · rw [k3, abs_of_pos habs]
    exact hbound

/-- Claim C8: for the `(4, -2)` test system and each penalty parameter in
`{1e3, 1e4, 1e6}`, the penalty solver's absolute error is strictly below
`1/mu` in each primal component and in the multiplier. -/
theorem simpleSaddle_penalty_error (mu : ℝ)
    (hmu : mu = 1000 ∨ mu = 10000 ∨ mu = 1000000) :
    |(SimpleSaddle.Penalty (mkSimpleSaddle 4 (-2)) mu).1| < 1 / mu ∧
    |(SimpleSaddle.Penalty (mkSimpleSaddle 4 (-2)) mu).2.1| < 1 / mu ∧
    |(SimpleSaddle.Penalty (mkSimpleSaddle 4 (-2)) mu).2.2| < 1 / mu := by
  rcases hmu with h | h | h <;> subst h <;> exact penalty_bound_gen _ (by norm_num)

/-- Witness for claim C8: the bound at penalty parameter 1000. -/
theorem simpleSaddle_penalty_error_witness :
    |(SimpleSaddle.Penalty (mkSimpleSaddle 4 (-2)) 1000).1| < 1 / 1000 ∧
    |(SimpleSaddle.Penalty (mkSimpleSaddle 4 (-2)) 1000).2.1| < 1 / 1000 ∧
    |(SimpleSaddle.Penalty (mkSimpleSaddle 4 (-2)) 1000).2.2| < 1 / 1000 :=
  simpleSaddle_penalty_error 1000 (Or.inl rfl)

/-- Witness for claim C10: a configuration whose element cap is already reached
stops, makes no refinement call, and reports zero marked elements together with
the mesh's sequence number. -/
theorem thresholdRefiner_stop_frame_witness :
    (ThresholdRefiner.ApplyImpl trStop est0 mesh0).2.2 = none ∧
    (ThresholdRefiner.ApplyImpl trStop est0 mesh0).2.1.num_marked_elements = 0 ∧
    (ThresholdRefiner.ApplyImpl trStop est0 mesh0).2.1.current_sequence =
      mesh0.seqNo := by
  refine (thresholdRefiner_stop_frame trStop est0 mesh0).2 ?_
  rw [ThresholdRefiner.ApplyImpl]
  rw [if_pos (by norm_num [mesh0, trStop, tr0])]

end mfem
